import Mathlib

/-!
Verification of the transaction-aggregating router (`aggregator` crate).

The Rust source is shallowly embedded: `f64` arithmetic is modelled by exact
rational arithmetic over `ℚ` (all values reachable in the modelled paths are
finite, so the `is_finite` guards in the source are vacuous here), machine
integers (`u64`, `usize`) by `ℕ`, wall-clock instants by `ℕ` milliseconds,
and fallible functions (`anyhow::Result`) by `Option`.  Each definition
mirrors one function of the source, with the same name where Lean allows it.
-/

/-! ## `src/aggregator/src/quant.rs` -/

/-- Model of `quantize_price(price, tick_size)` from `quant.rs`: checks
`tick_size > 0`, `price > 0`, computes `steps = (price / tick_size).floor()`,
requires `steps ≥ 1`, and returns `steps * tick_size`. -/
def quantize_price (price tick_size : ℚ) : Option ℚ :=
  if tick_size ≤ 0 then none
  else if price ≤ 0 then none
  else
    let steps : ℤ := ⌊price / tick_size⌋
    if steps < 1 then none
    else some ((steps : ℚ) * tick_size)

/-- Model of `quantize_size(quantity, lot_size, min_size)` from `quant.rs`: checks
`lot_size > 0`, `min_size > 0`, `quantity ≥ min_size`, computes
`steps = (quantity / lot_size).floor()`, requires `steps ≥ 1`, and returns
`steps * lot_size`. -/
def quantize_size (quantity lot_size min_size : ℚ) : Option ℚ :=
  if lot_size ≤ 0 then none
  else if min_size ≤ 0 then none
  else if quantity < min_size then none
  else
    let steps : ℤ := ⌊quantity / lot_size⌋
    if steps < 1 then none
    else some ((steps : ℚ) * lot_size)

/-! ## `src/aggregator/src/router/selector.rs` -/

/-- The level-2 snapshot returned by the venue SDK
(`sui_deepbookv3::client::Level2TicksFromMid`): parallel price/quantity
lists for each side of the book. -/
structure Level2TicksFromMid where
  bid_prices : List ℚ
  bid_quantities : List ℚ
  ask_prices : List ℚ
  ask_quantities : List ℚ

/-- The fill-accumulation loop inside `calculate_slippage`
(`selector.rs:299-308`): given the remaining quantity and accumulated cost,
consume `(price, quantity)` levels until the remaining quantity reaches
zero; returns `(remaining_qty, total_cost)`. -/
def walkBook : ℚ → ℚ → List (ℚ × ℚ) → ℚ × ℚ
  | remaining, total, [] => (remaining, total)
  | remaining, total, (p, q) :: rest =>
    if remaining ≤ 0 then (remaining, total)
    else walkBook (remaining - min remaining q) (total + min remaining q * p) rest

/-- Model of `RouteSelector::calculate_slippage` (`selector.rs:276-333`).  Note the
side selection on the first line: for a bid it reads the *bid* side of the
book, for an ask the *ask* side. -/
def calculate_slippage (price quantity : ℚ) (is_bid : Bool)
    (level2 : Level2TicksFromMid) (tick_size : ℚ) : ℚ :=
  let prices := if is_bid then level2.bid_prices else level2.ask_prices
  let quantities := if is_bid then level2.bid_quantities else level2.ask_quantities
  if prices.isEmpty || quantities.isEmpty then price * quantity * (1/100)
  else
    let w := walkBook quantity 0 (prices.zip quantities)
    let total_cost :=
      if 0 < w.1 then
        let last_price := prices.getLast?.getD price
        let worst_price := if is_bid then last_price - tick_size else last_price + tick_size
        w.2 + w.1 * worst_price
      else w.2
    let avg_fill_price := total_cost / quantity
    if is_bid then max (avg_fill_price - price) 0 * quantity
    else max (price - avg_fill_price) 0 * quantity

/-! ## `src/aggregator/src/router/routes.rs` -/

/-- Model of `RouteScore::latency_penalty_for_route` (`routes.rs:81-96`):
`0` for owned-object routes; for shared-object routes
`(expected_latency_ms.saturating_sub(base_latency_ms) / 100.0) * 0.0001`. -/
def latency_penalty_for_route (uses_shared_objects : Bool)
    (expected_latency_ms base_latency_ms : ℕ) : ℚ :=
  if uses_shared_objects then
    ((expected_latency_ms - base_latency_ms : ℕ) : ℚ) / 100 * (1/10000)
  else 0

/-! ## `src/aggregator/src/router/validator.rs` -/

/-- Model of `ValidatorStats` (`validator.rs:21-30`); `Instant` is modelled as
milliseconds since an arbitrary origin. -/
structure ValidatorStats where
  effects_ewma_ms : ℚ
  observations : ℕ
  last_update : ℕ
  healthy : Bool

/-- Model of `ValidatorStats::new` (`validator.rs:33-40`): the 500 ms neutral prior. -/
def ValidatorStats.new (now : ℕ) : ValidatorStats :=
  ⟨500, 0, now, true⟩

/-- Model of `ValidatorStats::update_ewma` (`validator.rs:44-52`): the first
observation replaces the prior, later ones blend with weight `alpha`. -/
def ValidatorStats.update_ewma (s : ValidatorStats) (observed_ms alpha : ℚ)
    (now : ℕ) : ValidatorStats :=
  { s with
    effects_ewma_ms :=
      if s.observations = 0 then observed_ms
      else alpha * observed_ms + (1 - alpha) * s.effects_ewma_ms,
    observations := s.observations + 1,
    last_update := now }

/-- The `validators` hash map of `ValidatorSelector`, as a partial map from
endpoint names to stats. -/
abbrev ValidatorMap := String → Option ValidatorStats

/-- Model of `ValidatorSelector::register` (`validator.rs:77-81`): `or_insert_with`
of a fresh `ValidatorStats::new`. -/
def registerValidator (m : ValidatorMap) (endpoint : String) (now : ℕ) : ValidatorMap :=
  fun s => if s = endpoint then some ((m endpoint).getD (ValidatorStats.new now)) else m s

/-- Model of `ValidatorSelector::record_effects_time` (`validator.rs:84-104`):
updates the EWMA of a registered endpoint, does nothing for an
unregistered one. -/
def record_effects_time (m : ValidatorMap) (endpoint : String)
    (effects_time_ms alpha : ℚ) (now : ℕ) : ValidatorMap :=
  fun s =>
    if s = endpoint then
      (m endpoint).map (fun st => st.update_ewma effects_time_ms alpha now)
    else m s

/-- Fold `update_ewma` over a list of observations. -/
def applyObservations (alpha : ℚ) (now : ℕ) (s : ValidatorStats) (xs : List ℚ) :
    ValidatorStats :=
  xs.foldl (fun st x => st.update_ewma x alpha now) s

/-- The closed form claimed by the spec for the EWMA after observations
`x :: rest`: `(1−α)^(n−1)·x₁ + Σ_{i≥2} α·(1−α)^(n−i)·xᵢ`. -/
def ewmaClosedForm (alpha x : ℚ) (rest : List ℚ) : ℚ :=
  (1 - alpha) ^ rest.length * x +
    ∑ j ∈ Finset.range rest.length,
      alpha * (1 - alpha) ^ (rest.length - 1 - j) * rest.getD j 0

/-! ## `src/aggregator/src/control.rs` -/

/-- Model of `Breaker` (`control.rs:80-87`): sliding outcome window (`true` =
failure) plus an optional opening deadline; instants in milliseconds. -/
structure Breaker where
  window : List Bool
  max_window : ℕ
  threshold : ℚ
  min_samples : ℕ
  open_until : Option ℕ
  open_cooldown : ℕ

/-- Model of `Breaker::default` (`control.rs:147-158`): window 100, threshold 0.5,
min samples 20, cooldown 5 s. -/
def Breaker.default : Breaker :=
  ⟨[], 100, 1/2, 20, none, 5000⟩

/-- The window update performed by `CircuitBreakers::record`
(`control.rs:130-133`): evict the oldest outcome when full, append the new
one. -/
def Breaker.next_window (b : Breaker) (failure : Bool) : List Bool :=
  (if b.window.length = b.max_window then b.window.drop 1 else b.window) ++ [failure]

/-- Model of `CircuitBreakers::record` (`control.rs:125-144`): push the outcome,
then open the breaker iff the window holds at least `min_samples` samples,
the failure rate reaches `threshold`, and `open_until` is `None`. -/
def Breaker.record (b : Breaker) (now : ℕ) (failure : Bool) : Breaker :=
  let w := b.next_window failure
  if b.min_samples ≤ w.length ∧
      b.threshold ≤ (((w.filter id).length : ℚ) / (w.length : ℚ)) ∧
      b.open_until = none then
    { b with window := w, open_until := some (now + b.open_cooldown) }
  else
    { b with window := w }

/-- Model of `CircuitBreakers::is_open` (`control.rs:102-115`): report true while
`now` is before the deadline; clear an expired deadline. -/
def Breaker.is_open (b : Breaker) (now : ℕ) : Bool × Breaker :=
  match b.open_until with
  | some u => if now < u then (true, b) else (false, { b with open_until := none })
  | none => (false, b)

/-- The breaker state after twenty recordings at time 0, ten failures then
ten successes: the twentieth recording opens it until 5000 ms. -/
def breakerOpened : Breaker :=
  (List.replicate 10 true ++ List.replicate 10 false).foldl
    (fun b f => b.record 0 f) Breaker.default

/-! ## `src/aggregator/src/sponsorship.rs` -/

/-- Model of `Budget` (`sponsorship.rs:33-44`); durations and instants in
milliseconds. -/
structure Budget where
  total_budget : ℕ
  spent : ℕ
  window : Option ℕ
  last_reset : ℕ
  per_tx_limit : ℕ

/-- Model of `Budget::new` (`sponsorship.rs:47-55`). -/
def Budget.new (total per_tx : ℕ) (w : Option ℕ) (now : ℕ) : Budget :=
  ⟨total, 0, w, now, per_tx⟩

/-- Model of `Budget::can_spend` (`sponsorship.rs:58-74`): reset `spent` if the
window expired, then admit iff `amount ≤ per_tx_limit` and
`spent + amount ≤ total_budget`.  Returns the mutated budget as well. -/
def Budget.can_spend (b : Budget) (now amount : ℕ) : Bool × Budget :=
  let b1 :=
    match b.window with
    | some w => if w ≤ now - b.last_reset then { b with spent := 0, last_reset := now } else b
    | none => b
  if b1.per_tx_limit < amount then (false, b1)
  else (decide (b1.spent + amount ≤ b1.total_budget), b1)

/-- Model of `Budget::spend` (`sponsorship.rs:77-79`): unconditional
`spent += amount`. -/
def Budget.spend (b : Budget) (amount : ℕ) : Budget :=
  { b with spent := b.spent + amount }

/-- Model of `AbuseMetrics` (`sponsorship.rs:89-98`). -/
structure AbuseMetrics where
  tx_count : ℕ
  gas_spent : ℕ
  window_start : ℕ
  window_duration : ℕ

/-- Model of `AbuseMetrics::new` (`sponsorship.rs:101-108`). -/
def AbuseMetrics.new (window_duration now : ℕ) : AbuseMetrics :=
  ⟨0, 0, now, window_duration⟩

/-- Model of `AbuseMetrics::record_tx` (`sponsorship.rs:110-120`). -/
def AbuseMetrics.record_tx (m : AbuseMetrics) (gas now : ℕ) : AbuseMetrics :=
  let m1 :=
    if m.window_duration ≤ now - m.window_start then
      { m with tx_count := 0, gas_spent := 0, window_start := now }
    else m
  { m1 with tx_count := m1.tx_count + 1, gas_spent := m1.gas_spent + gas }

/-- Model of `AbuseMetrics::check_limits` (`sponsorship.rs:122-129`). -/
def AbuseMetrics.check_limits (m : AbuseMetrics)
    (max_tx_per_window max_gas_per_window now : ℕ) : Bool :=
  if m.window_duration ≤ now - m.window_start then true
  else decide (m.tx_count ≤ max_tx_per_window) && decide (m.gas_spent ≤ max_gas_per_window)

/-- Model of `AbuseConfig` (`sponsorship.rs:153-160`). -/
structure AbuseConfig where
  max_tx_per_window : ℕ
  max_gas_per_window : ℕ
  window_duration : ℕ

/-- Model of `SponsorshipManager::can_sponsor` (`sponsorship.rs:252-300`) for one
user: check the user's budget only if one was set, then create-or-read the
user's abuse metrics and check their limits, then require a registered gas
coin.  Returns `(admitted, budget entry, abuse entry)` as left in the
maps. -/
def can_sponsor (budget : Option Budget) (abuse : Option AbuseMetrics)
    (cfg : AbuseConfig) (gas_coins : List ℕ) (now estimated_gas : ℕ) :
    Bool × Option Budget × Option AbuseMetrics :=
  let budgetStep : Bool × Option Budget :=
    match budget with
    | some b =>
      let r := b.can_spend now estimated_gas
      (r.1, some r.2)
    | none => (true, none)
  if budgetStep.1 = false then (false, budgetStep.2, abuse)
  else
    let m := abuse.getD (AbuseMetrics.new cfg.window_duration now)
    if m.check_limits cfg.max_tx_per_window cfg.max_gas_per_window now = false then
      (false, budgetStep.2, some m)
    else if gas_coins.isEmpty then (false, budgetStep.2, some m)
    else (true, budgetStep.2, some m)

/-- The operations the claim quantifies over: `can_sponsor` admission
checks (which may reset the window) and the unconditional charge performed
by `build_and_sign_sponsored_transaction` via `record_spending`
(`sponsorship.rs:357-402`). -/
inductive BudgetOp where
  | check (now amount : ℕ)
  | charge (amount : ℕ)

/-- Run a sequence of admission checks and charges against one budget. -/
def runBudgetOps : Budget → List BudgetOp → Budget
  | b, [] => b
  | b, BudgetOp.check now a :: rest => runBudgetOps (b.can_spend now a).2 rest
  | b, BudgetOp.charge a :: rest => runBudgetOps (b.spend a) rest

/-- Guarded operations: a plain admission check, or a charge that is
performed only when an immediately preceding `can_spend` of the same
amount succeeds. -/
inductive GuardedOp where
  | check (now amount : ℕ)
  | guardedCharge (now amount : ℕ)

/-- Run a sequence of guarded operations against one budget. -/
def runGuardedOps : Budget → List GuardedOp → Budget
  | b, [] => b
  | b, GuardedOp.check now a :: rest => runGuardedOps (b.can_spend now a).2 rest
  | b, GuardedOp.guardedCharge now a :: rest =>
    let r := b.can_spend now a
    runGuardedOps (if r.1 then r.2.spend a else r.2) rest

/-! ## `src/aggregator/src/router/execution.rs` -/

/-- Outcome of one `execute_with_sponsorship` call, by kind. -/
inductive ExecOutcome where
  | duplicate
  | submitFailed
  | success
deriving DecidableEq

/-- The mutable state of `ExecutionEngine` touched by one execution
(`execution.rs:59-71`): the `seen_digests` set and the atomic counters,
plus a count of submission attempts handed to the transport. -/
structure EngineState where
  seen_digests : List String
  total_executions : ℕ
  successful_executions : ℕ
  failed_executions : ℕ
  submit_attempts : ℕ

/-- Model of `ExecutionEngine::execute_with_sponsorship` (`execution.rs:154-268`),
with compile-and-sign abstracted into the canonical bytes `tx_bcs` and the
hash of `compute_digest` (`execution.rs:716-723`, a dependency of this
crate) abstracted into `digestFn`; the submission outcome of
`submit_with_retry` is the oracle `submit_ok`.  Order of effects follows
the source: count the execution, check `seen_digests`, fail as a duplicate
without submitting, otherwise submit, and insert the digest only after a
successful submission. -/
def execute_with_sponsorship (digestFn : List ℕ → String) (s : EngineState)
    (tx_bcs : List ℕ) (submit_ok : Bool) : EngineState × ExecOutcome :=
  let s1 := { s with total_executions := s.total_executions + 1 }
  let digest := digestFn tx_bcs
  if digest ∈ s1.seen_digests then
    ({ s1 with failed_executions := s1.failed_executions + 1 }, ExecOutcome.duplicate)
  else
    let s2 := { s1 with submit_attempts := s1.submit_attempts + 1 }
    if submit_ok then
      ({ s2 with
          seen_digests := digest :: s2.seen_digests,
          successful_executions := s2.successful_executions + 1 }, ExecOutcome.success)
    else
      ({ s2 with failed_executions := s2.failed_executions + 1 }, ExecOutcome.submitFailed)

/-! ## Helper lemmas -/

/-- Successful `quantize_price` yields `⌊price / tick⌋ * tick` with the
floor at least `1`, and the tick positive. -/
lemma quantize_price_eq {price tick r : ℚ} (h : quantize_price price tick = some r) :
    r = (⌊price / tick⌋ : ℚ) * tick ∧ 1 ≤ ⌊price / tick⌋ ∧ 0 < tick := by
  unfold quantize_price at h
  by_cases ht : tick ≤ 0
  · simp [ht] at h
  · by_cases hp : price ≤ 0
    · simp [ht, hp] at h
    · by_cases hs : ⌊price / tick⌋ < 1
      · simp [ht, hp, hs] at h
      · simp only [ht, hp, hs, if_false, if_neg, Option.some.injEq] at h
        exact ⟨h.symm, le_of_not_lt hs, lt_of_not_le ht⟩

/-- Successful `quantize_size` yields `⌊quantity / lot⌋ * lot` with the floor
at least `1`, the lot positive, and `min ≤ quantity`. -/
lemma quantize_size_eq {q lot m r : ℚ} (h : quantize_size q lot m = some r) :
    r = (⌊q / lot⌋ : ℚ) * lot ∧ 1 ≤ ⌊q / lot⌋ ∧ 0 < lot ∧ 0 < m ∧ m ≤ q := by
  unfold quantize_size at h
  by_cases hl : lot ≤ 0
  · simp [hl] at h
  · by_cases hm : m ≤ 0
    · simp [hl, hm] at h
    · by_cases hq : q < m
      · simp [hl, hm, hq] at h
      · by_cases hs : ⌊q / lot⌋ < 1
        · simp [hl, hm, hq, hs] at h
        · simp only [hl, hm, hq, hs, if_false, if_neg, Option.some.injEq] at h
          exact ⟨h.symm, le_of_not_lt hs, lt_of_not_le hl, lt_of_not_le hm,
            le_of_not_lt hq⟩

/-- Whenever `min_size` is an integer multiple of `lot_size`, a successful
`quantize_size` returns at least `min_size`. -/
lemma quantize_size_min_le {q l m s : ℚ} (h : quantize_size q l m = some s)
    (k : ℤ) (hk : m = k * l) : m ≤ s := by
  obtain ⟨hs, _, hl, _, hq⟩ := quantize_size_eq h
  have hkq : (k : ℚ) ≤ q / l := by
    rw [le_div_iff₀ hl]
    calc (k : ℚ) * l = m := hk.symm
    _ ≤ q := hq
  have hfloor : k ≤ ⌊q / l⌋ := Int.le_floor.mpr hkq
  calc m = (k : ℚ) * l := hk
  _ ≤ (⌊q / l⌋ : ℚ) * l := by
      exact mul_le_mul_of_nonneg_right (by exact_mod_cast hfloor) hl.le
  _ = s := hs.symm

/-- A successful `quantize_price` is a fixed point of `quantize_price`. -/
lemma quantize_price_idem {p t r : ℚ} (h : quantize_price p t = some r) :
    quantize_price r t = some r := by
  obtain ⟨hr, hfl, ht⟩ := quantize_price_eq h
  have hrpos : 0 < r := by
    rw [hr]
    have : (1 : ℚ) ≤ (⌊p / t⌋ : ℚ) := by exact_mod_cast hfl
    nlinarith
  have hdiv : r / t = (⌊p / t⌋ : ℚ) := by
    rw [hr, mul_div_cancel_right₀ _ ht.ne']
  unfold quantize_price
  rw [if_neg (not_le.mpr ht), if_neg (not_le.mpr hrpos)]
  simp only [hdiv, Int.floor_intCast]
  rw [if_neg (not_lt.mpr hfl), ← hr]

/-- When `min_size` is an integer multiple of `lot_size`, a successful
`quantize_size` is a fixed point of `quantize_size`. -/
lemma quantize_size_idem {q l m s : ℚ} (hm : ∃ k : ℤ, m = (k : ℚ) * l)
    (h : quantize_size q l m = some s) : quantize_size s l m = some s := by
  obtain ⟨k, hk⟩ := hm
  obtain ⟨hs, hfl, hl, hmpos, _⟩ := quantize_size_eq h
  have hms : m ≤ s := quantize_size_min_le h k hk
  have hdiv : s / l = (⌊q / l⌋ : ℚ) := by
    rw [hs, mul_div_cancel_right₀ _ hl.ne']
  unfold quantize_size
  rw [if_neg (not_le.mpr hl), if_neg (not_le.mpr hmpos), if_neg (not_lt.mpr hms)]
  simp only [hdiv, Int.floor_intCast]
  rw [if_neg (not_lt.mpr hfl), ← hs]

/-- Lemma: `Budget.can_spend` either leaves the budget unchanged or resets
`spent` to zero, and whenever it admits the amount, the budget it leaves
behind satisfies `spent + amount ≤ total_budget`. -/
lemma can_spend_cases (b : Budget) (now a : ℕ) :
    ((b.can_spend now a).2 = b ∨
      (b.can_spend now a).2 = { b with spent := 0, last_reset := now }) ∧
    ((b.can_spend now a).1 = true →
      (b.can_spend now a).2.spent + a ≤ (b.can_spend now a).2.total_budget) := by
  unfold Budget.can_spend
  cases hw : b.window with
  | none =>
    dsimp only
    by_cases hp : b.per_tx_limit < a
    · rw [if_pos hp]
      exact ⟨Or.inl rfl, by simp⟩
    · rw [if_neg hp]
      exact ⟨Or.inl rfl, fun ht => by simpa using ht⟩
  | some w =>
    dsimp only
    by_cases hr : w ≤ now - b.last_reset
    · rw [if_pos hr]
      by_cases hp : ({ b with spent := 0, last_reset := now } : Budget).per_tx_limit < a
      · rw [if_pos hp]
        exact ⟨Or.inr rfl, by simp⟩
      · rw [if_neg hp]
        exact ⟨Or.inr rfl, fun ht => by simpa using ht⟩
    · rw [if_neg hr]
      by_cases hp : b.per_tx_limit < a
      · rw [if_pos hp]
        exact ⟨Or.inl rfl, by simp⟩
      · rw [if_neg hp]
        exact ⟨Or.inl rfl, fun ht => by simpa using ht⟩

/-- Folding `update_ewma` adds the number of observations. -/
lemma applyObservations_observations (alpha : ℚ) (now : ℕ) (xs : List ℚ) :
    ∀ s : ValidatorStats,
      (applyObservations alpha now s xs).observations = s.observations + xs.length := by
  induction xs with
  | nil => intro s; simp [applyObservations]
  | cons v rest ih =>
    intro s
    have h1 : applyObservations alpha now s (v :: rest)
        = applyObservations alpha now (s.update_ewma v alpha now) rest := rfl
    rw [h1, ih]
    simp [ValidatorStats.update_ewma]
    omega

/-- Folding `update_ewma` over a snoc applies the last observation last. -/
lemma applyObservations_append (alpha : ℚ) (now : ℕ) (s : ValidatorStats)
    (xs : List ℚ) (y : ℚ) :
    applyObservations alpha now s (xs ++ [y])
      = (applyObservations alpha now s xs).update_ewma y alpha now := by
  simp [applyObservations, List.foldl_append]

/-- One more observation turns the closed form for `x :: rest` into the
closed form for `x :: (rest ++ [y])`. -/
lemma ewmaClosedForm_append (alpha x y : ℚ) (rest : List ℚ) :
    ewmaClosedForm alpha x (rest ++ [y])
      = alpha * y + (1 - alpha) * ewmaClosedForm alpha x rest := by
  unfold ewmaClosedForm
  rw [List.length_append]
  simp only [List.length_singleton]
  rw [Finset.sum_range_succ]
  have hy : (rest ++ [y]).getD rest.length 0 = y := by
    simp [List.getD_eq_getElem?_getD, List.getElem?_append_right]
  have hterm : ∀ j ∈ Finset.range rest.length,
      alpha * (1 - alpha) ^ (rest.length + 1 - 1 - j) * (rest ++ [y]).getD j 0
        = (1 - alpha) * (alpha * (1 - alpha) ^ (rest.length - 1 - j) * rest.getD j 0) := by
    intro j hj
    rw [Finset.mem_range] at hj
    have hg : (rest ++ [y]).getD j 0 = rest.getD j 0 := by
      simp [List.getD_eq_getElem?_getD, List.getElem?_append_left hj]
    have he : rest.length + 1 - 1 - j = (rest.length - 1 - j) + 1 := by omega
    rw [hg, he, pow_succ]
    ring
  rw [Finset.sum_congr rfl hterm, hy]
  have h0 : rest.length + 1 - 1 - rest.length = 0 := by omega
  rw [h0, ← Finset.mul_sum]
  ring

/-- The EWMA after a first observation `x` and later observations `rest`,
starting from the neutral prior, equals the closed form. -/
lemma applyObservations_closed (alpha : ℚ) (now t0 : ℕ) (x : ℚ) (rest : List ℚ) :
    (applyObservations alpha now (ValidatorStats.new t0) (x :: rest)).effects_ewma_ms
      = ewmaClosedForm alpha x rest := by
  induction rest using List.reverseRecOn with
  | nil =>
    simp [applyObservations, ValidatorStats.update_ewma, ValidatorStats.new,
      ewmaClosedForm]
  | append_singleton rest y ih =>
    have hsplit : x :: (rest ++ [y]) = (x :: rest) ++ [y] := rfl
    rw [hsplit, applyObservations_append]
    have hobs : (applyObservations alpha now (ValidatorStats.new t0)
        (x :: rest)).observations = rest.length + 1 := by
      rw [applyObservations_observations]
      simp [ValidatorStats.new]
    have hne : (applyObservations alpha now (ValidatorStats.new t0)
        (x :: rest)).observations ≠ 0 := by
      rw [hobs]; exact Nat.succ_ne_zero _
    show (if (applyObservations alpha now (ValidatorStats.new t0)
        (x :: rest)).observations = 0 then y
      else alpha * y + (1 - alpha) * (applyObservations alpha now
        (ValidatorStats.new t0) (x :: rest)).effects_ewma_ms)
      = ewmaClosedForm alpha x (rest ++ [y])
    rw [if_neg hne, ih, ewmaClosedForm_append]

/-- Folding `record_effects_time` for endpoint `e` acts at `e` by folding
`update_ewma` over the endpoint's stats. -/
lemma record_fold_apply (alpha : ℚ) (e : String) (now : ℕ) (xs : List ℚ) :
    ∀ m : ValidatorMap,
      (xs.foldl (fun m v => record_effects_time m e v alpha now) m) e
        = (m e).map (fun st => applyObservations alpha now st xs) := by
  induction xs with
  | nil =>
    intro m
    cases hme : m e with
    | none => simp [hme]
    | some st => simp [hme, applyObservations]
  | cons v rest ih =>
    intro m
    rw [List.foldl_cons, ih]
    have h1 : (record_effects_time m e v alpha now) e
        = (m e).map (fun st => st.update_ewma v alpha now) := by
      simp [record_effects_time]
    rw [h1, Option.map_map]
    rfl

/-! ## Claim theorems -/

/-- C3 counterexample: `quantize_size(3, lot = 2, min = 3)` succeeds with
result `2`, which is strictly below the minimum size `3`; the part of the
claim stating that the result of a successful `quantize_size` is `≥ min`
is therefore false on the code. -/
theorem C3_counterexample_quantize_size_below_min :
    quantize_size 3 2 3 = some 2 ∧ ¬ ((3 : ℚ) ≤ 2) := by
  refine ⟨?_, by norm_num⟩
  norm_num [quantize_size]

/-- C3 (amended): for every successful `quantize_price(p, t)` the result is
an integer multiple of `t`; for every successful `quantize_size(q, l, m)`
the result is an integer multiple of `l`, and it is `≥ m` whenever `m` is
itself an integer multiple of `l` (without that side condition the bound
can fail, as the counterexample shows). -/
theorem C3_quantization_invariants (p t q l m r s : ℚ)
    (hp : quantize_price p t = some r) (hs : quantize_size q l m = some s) :
    (∃ n : ℤ, r = (n : ℚ) * t) ∧ (∃ n : ℤ, s = (n : ℚ) * l) ∧
    (∀ k : ℤ, m = (k : ℚ) * l → m ≤ s) := by
  refine ⟨⟨⌊p / t⌋, (quantize_price_eq hp).1⟩, ⟨⌊q / l⌋, (quantize_size_eq hs).1⟩, ?_⟩
  intro k hk
  exact quantize_size_min_le hs k hk

/-- C3 witness: the amended invariants at `quantize_price(5/2, 1) = 2` and
`quantize_size(4, 2, 2) = 4`. -/
theorem C3_quantization_invariants_witness :
    (∃ n : ℤ, (2 : ℚ) = (n : ℚ) * 1) ∧ (∃ n : ℤ, (4 : ℚ) = (n : ℚ) * 2) ∧
    (∀ k : ℤ, (2 : ℚ) = (k : ℚ) * 2 → (2 : ℚ) ≤ 4) :=
  C3_quantization_invariants (5/2) 1 4 2 2 2 4
    (by norm_num [quantize_price]) (by norm_num [quantize_size])

/-- C8 counterexample: `quantize_size(3, lot = 2, min = 3)` succeeds with
result `2`, but re-quantizing that output fails (`2 < min = 3`), so
`quantize_size` is not idempotent on all inputs on which it succeeds. -/
theorem C8_counterexample_quantize_size_not_idempotent :
    quantize_size 3 2 3 = some 2 ∧ quantize_size 2 2 3 = none := by
  constructor
  · norm_num [quantize_size]
  · norm_num [quantize_size]

/-- C8 (amended): `quantize_price` is idempotent on every input on which it
succeeds; `quantize_size` is idempotent on every input on which it
succeeds provided the minimum size is an integer multiple of the lot size
(the counterexample shows the proviso is needed). -/
theorem C8_quantization_idempotent (p t q l m r s : ℚ)
    (hp : quantize_price p t = some r)
    (hm : ∃ k : ℤ, m = (k : ℚ) * l)
    (hs : quantize_size q l m = some s) :
    quantize_price r t = some r ∧ quantize_size s l m = some s :=
  ⟨quantize_price_idem hp, quantize_size_idem hm hs⟩

/-- C8 witness: idempotence at `quantize_price(5/2, 1) = 2` and
`quantize_size(4, 2, 2) = 4`. -/
theorem C8_quantization_idempotent_witness :
    quantize_price 2 1 = some 2 ∧ quantize_size 4 2 2 = some 4 :=
  C8_quantization_idempotent (5/2) 1 4 2 2 2 4
    (by norm_num [quantize_price]) ⟨1, by norm_num⟩ (by norm_num [quantize_size])

/-- C1: `calculate_slippage` walks the book side *named after* the order
direction, not the opposing side.  At the spec's own worked example — a bid
at price 1.000 for quantity 10 against a book whose asks are
`[(1.001, 5), (1.002, 6)]` (and whose bid side is empty), tick 0.001 — the
code reads the empty bid side and returns the 1 % no-liquidity fallback
`1.000·10·0.01 = 0.1`, not the claimed `0.015`; walking the ask side, as
the claim describes, would fill 5 at 1.001 and 5 at 1.002 for a total cost
`2003/200`, average `1.0015`, and slippage `(1.0015 − 1)·10 = 0.015`. -/
theorem C1_slippage_walks_same_side :
    calculate_slippage 1 10 true ⟨[], [], [1001/1000, 501/500], [5, 6]⟩ (1/1000)
      = 1/10 ∧
    (1/10 : ℚ) ≠ 3/200 ∧
    walkBook 10 0 ([(1001/1000 : ℚ), 501/500].zip [5, 6]) = (0, 2003/200) ∧
    ((2003/200 : ℚ) / 10 - 1) * 10 = 3/200 := by
  refine ⟨?_, by norm_num, ?_, by norm_num⟩
  · norm_num [calculate_slippage]
  · norm_num [walkBook, List.zip]

/-- C5 counterexample: for a shared-object route with expected latency
200 ms, base latency 100 ms, and an order of price 2 and quantity 5
(notional 10), the code computes a penalty of `(100/100)·1e-4 = 1e-4`,
whereas the claim's formula `(max(0, 200−100)/100)·1e-4·notional` gives
`1e-3`; the code never multiplies by the notional. -/
theorem C5_counterexample_no_notional_factor :
    latency_penalty_for_route true 200 100 = 1/10000 ∧
    (1/10000 : ℚ) ≠ max 0 ((200 : ℚ) - 100) / 100 * (1/10000) * (2 * 5) := by
  constructor
  · norm_num [latency_penalty_for_route]
  · norm_num

/-- C5 (amended): the latency penalty is `0` for owned-object (fast-path)
routes and `(max(0, expected − base) / 100 ms) · 1e-4` for shared-object
routes — a dimensionless fraction, not multiplied by the order's
notional. -/
theorem C5_latency_penalty (e b : ℕ) :
    latency_penalty_for_route false e b = 0 ∧
    latency_penalty_for_route true e b = max 0 ((e : ℚ) - (b : ℚ)) / 100 * (1/10000) := by
  constructor
  · simp [latency_penalty_for_route]
  · unfold latency_penalty_for_route
    rw [if_pos rfl]
    rcases le_or_lt b e with h | h
    · rw [Nat.cast_sub h, max_eq_right (sub_nonneg.mpr (by exact_mod_cast h))]
    · rw [Nat.sub_eq_zero_of_le h.le,
        max_eq_left (sub_nonpos.mpr (by exact_mod_cast h.le))]
      norm_num

/-- C2: when the digest of the canonical transaction bytes is already in
`seen_digests`, `execute_with_sponsorship` returns the duplicate error,
hands nothing to the transport, and leaves `seen_digests` unchanged; and
executing the same canonical bytes twice, the first submission succeeding,
makes the second call fail as a duplicate regardless of how its submission
would have gone. -/
theorem C2_duplicate_submission_rejected (digestFn : List ℕ → String)
    (s : EngineState) (tx : List ℕ) (submit_ok : Bool)
    (h : digestFn tx ∈ s.seen_digests) :
    (execute_with_sponsorship digestFn s tx submit_ok).2 = ExecOutcome.duplicate ∧
    (execute_with_sponsorship digestFn s tx submit_ok).1.submit_attempts
      = s.submit_attempts ∧
    (execute_with_sponsorship digestFn s tx submit_ok).1.seen_digests
      = s.seen_digests ∧
    ∀ (s₂ : EngineState) (tx₂ : List ℕ) (ok₂ : Bool),
      digestFn tx₂ ∉ s₂.seen_digests →
      (execute_with_sponsorship digestFn s₂ tx₂ true).2 = ExecOutcome.success ∧
      (execute_with_sponsorship digestFn
          (execute_with_sponsorship digestFn s₂ tx₂ true).1 tx₂ ok₂).2
        = ExecOutcome.duplicate := by
  refine ⟨?_, ?_, ?_, ?_⟩
  · simp [execute_with_sponsorship, h]
  · simp [execute_with_sponsorship, h]
  · simp [execute_with_sponsorship, h]
  · intro s₂ tx₂ ok₂ h₂
    constructor
    · simp [execute_with_sponsorship, h₂]
    · simp [execute_with_sponsorship, h₂]

/-- C2 witness: a digest already seen is rejected as a duplicate. -/
theorem C2_duplicate_submission_rejected_witness :
    (execute_with_sponsorship (fun _ => "d") ⟨["d"], 1, 1, 0, 1⟩ [] true).2
      = ExecOutcome.duplicate :=
  (C2_duplicate_submission_rejected (fun _ => "d") ⟨["d"], 1, 1, 0, 1⟩ [] true
    (by simp)).1

/-- C9: when submission fails, the digest is not inserted into
`seen_digests` and `failed_executions` is incremented exactly once; since
the digest is inserted only after a successful submission, a later
execution of the same canonical bytes is not rejected as a duplicate. -/
theorem C9_failed_submission_not_recorded (digestFn : List ℕ → String)
    (s : EngineState) (tx : List ℕ) (h : digestFn tx ∉ s.seen_digests) :
    (execute_with_sponsorship digestFn s tx false).2 = ExecOutcome.submitFailed ∧
    (execute_with_sponsorship digestFn s tx false).1.seen_digests = s.seen_digests ∧
    (execute_with_sponsorship digestFn s tx false).1.failed_executions
      = s.failed_executions + 1 ∧
    (execute_with_sponsorship digestFn
        (execute_with_sponsorship digestFn s tx false).1 tx true).2
      = ExecOutcome.success := by
  refine ⟨?_, ?_, ?_, ?_⟩
  · simp [execute_with_sponsorship, h]
  · simp [execute_with_sponsorship, h]
  · simp [execute_with_sponsorship, h]
  · simp [execute_with_sponsorship, h]

/-- C9 witness: a failed submission leaves `seen_digests` empty and counts
one failure. -/
theorem C9_failed_submission_not_recorded_witness :
    (execute_with_sponsorship (fun _ => "d") ⟨[], 0, 0, 0, 0⟩ [] false).1.seen_digests
      = ([] : List String) :=
  (C9_failed_submission_not_recorded (fun _ => "d") ⟨[], 0, 0, 0, 0⟩ []
    (by simp)).2.1

/-- C4 counterexample: `Budget::spend` is an unconditional
`spent += amount`, and `build_and_sign_sponsored_transaction` charges its
`gas_budget` via `record_spending` with no admission check of its own, so
a charge that was not admitted by a matching `can_spend` drives `spent`
above `total_budget`: one charge of 200 against a fresh budget of 100
leaves `spent = 200 > 100`. -/
theorem C4_counterexample_unchecked_charge :
    (runBudgetOps (Budget.new 100 100 none 0) [BudgetOp.charge 200]).spent = 200 ∧
    (runBudgetOps (Budget.new 100 100 none 0) [BudgetOp.charge 200]).total_budget
      = 100 ∧
    ¬ ((runBudgetOps (Budget.new 100 100 none 0) [BudgetOp.charge 200]).spent
        ≤ (runBudgetOps (Budget.new 100 100 none 0)
            [BudgetOp.charge 200]).total_budget) := by
  refine ⟨rfl, rfl, ?_⟩
  intro hle
  simp [runBudgetOps, Budget.new, Budget.spend] at hle

/-- C4 (amended): `spent ≤ total_budget` is preserved by every sequence of
`can_sponsor` admission checks and charges in which each charge of an
amount is performed only when an immediately preceding `can_spend` of that
same amount succeeded; the unguarded charge of
`build_and_sign_sponsored_transaction` can violate the bound, as the
counterexample shows. -/
theorem C4_budget_invariant_guarded (b : Budget) (ops : List GuardedOp)
    (h : b.spent ≤ b.total_budget) :
    (runGuardedOps b ops).spent ≤ (runGuardedOps b ops).total_budget := by
  induction ops generalizing b with
  | nil => exact h
  | cons op rest ih =>
    cases op with
    | check now a =>
      apply ih
      rcases (can_spend_cases b now a).1 with h1 | h1 <;> rw [h1]
      · exact h
      · exact Nat.zero_le _
    | guardedCharge now a =>
      show (runGuardedOps (if (b.can_spend now a).1
          then (b.can_spend now a).2.spend a else (b.can_spend now a).2) rest).spent
        ≤ (runGuardedOps _ rest).total_budget
      by_cases hok : (b.can_spend now a).1 = true
      · rw [if_pos hok]
        apply ih
        have hsum := (can_spend_cases b now a).2 hok
        simpa [Budget.spend] using hsum
      · rw [if_neg hok]
        apply ih
        rcases (can_spend_cases b now a).1 with h1 | h1 <;> rw [h1]
        · exact h
        · exact Nat.zero_le _

/-- C4 witness: two guarded charges of 60 against a budget of 100 — the
second is refused, and the invariant holds. -/
theorem C4_budget_invariant_guarded_witness :
    (runGuardedOps (Budget.new 100 100 none 0)
        [GuardedOp.guardedCharge 0 60, GuardedOp.guardedCharge 0 60]).spent
      ≤ (runGuardedOps (Budget.new 100 100 none 0)
          [GuardedOp.guardedCharge 0 60, GuardedOp.guardedCharge 0 60]).total_budget :=
  C4_budget_invariant_guarded (Budget.new 100 100 none 0)
    [GuardedOp.guardedCharge 0 60, GuardedOp.guardedCharge 0 60] (Nat.zero_le _)

/-- C10: when no budget entry exists for the user, `can_sponsor` performs
no budget check: the admission decision equals the abuse-metrics check
conjoined with the presence of at least one registered sponsor gas coin,
no budget entry is created, and the result is the same for every
`estimated_gas` value. -/
theorem C10_no_budget_entry_no_budget_check (abuse : Option AbuseMetrics)
    (cfg : AbuseConfig) (gas_coins : List ℕ) (now g g' : ℕ) :
    (can_sponsor none abuse cfg gas_coins now g).1 =
      ((abuse.getD (AbuseMetrics.new cfg.window_duration now)).check_limits
          cfg.max_tx_per_window cfg.max_gas_per_window now
        && !gas_coins.isEmpty) ∧
    (can_sponsor none abuse cfg gas_coins now g).2.1 = none ∧
    can_sponsor none abuse cfg gas_coins now g
      = can_sponsor none abuse cfg gas_coins now g' := by
  refine ⟨?_, ?_, rfl⟩
  · cases hc : (abuse.getD (AbuseMetrics.new cfg.window_duration now)).check_limits
        cfg.max_tx_per_window cfg.max_gas_per_window now
    · simp [can_sponsor, hc]
    · cases he : gas_coins.isEmpty
      · simp [can_sponsor, hc, he]
      · simp [can_sponsor, hc, he]
  · cases hc : (abuse.getD (AbuseMetrics.new cfg.window_duration now)).check_limits
        cfg.max_tx_per_window cfg.max_gas_per_window now
    · simp [can_sponsor, hc]
    · cases he : gas_coins.isEmpty
      · simp [can_sponsor, hc, he]
      · simp [can_sponsor, hc, he]

/-- C6: for a freshly registered endpoint, the stats start from the
neutral 500 ms prior, the first `record_effects_time` observation replaces
it, and after observations `x :: rest` the EWMA equals the closed form
`(1−α)^(n−1)·x₁ + Σ_{i≥2} α·(1−α)^(n−i)·xᵢ`. -/
theorem C6_ewma_equals_closed_form (alpha x : ℚ) (rest : List ℚ) (e : String)
    (now : ℕ) :
    (((x :: rest).foldl (fun m v => record_effects_time m e v alpha now)
          (registerValidator (fun _ => none) e now)) e).map
        (fun st => st.effects_ewma_ms)
      = some (ewmaClosedForm alpha x rest) ∧
    (ValidatorStats.new now).effects_ewma_ms = 500 := by
  constructor
  · rw [record_fold_apply]
    have h0 : (registerValidator (fun _ => none) e now) e
        = some (ValidatorStats.new now) := by
      simp [registerValidator]
    rw [h0, Option.map_some', Option.map_some', Option.some.injEq]
    exact applyObservations_closed alpha now now x rest
  · rfl

/-- C7 counterexample: open the breaker at time 0 with twenty outcomes of
which ten are failures (`open_until = 5000 ms`); let the cooldown pass
without any `is_open` call, then record another failure at 6000 ms.  That
recording finds 21 ≥ 20 samples with failure rate 11/21 ≥ 1/2 — per the
claim the breaker opens and `is_open` must return true for the next 5 s —
yet `is_open` at 6000 ms returns false: `record` refuses to open while the
stale, already-expired marker is still `Some`. -/
theorem C7_counterexample_stale_open_marker :
    breakerOpened.open_until = some 5000 ∧
    20 ≤ (breakerOpened.record 6000 true).window.length ∧
    (1/2 : ℚ) ≤ (((breakerOpened.record 6000 true).window.filter id).length : ℚ)
        / (((breakerOpened.record 6000 true).window.length : ℚ)) ∧
    ((breakerOpened.record 6000 true).is_open 6000).1 = false := by
  have hb : breakerOpened.open_until = some 5000 ∧
      (breakerOpened.record 6000 true).window.length = 21 ∧
      ((breakerOpened.record 6000 true).window.filter id).length = 11 ∧
      ((breakerOpened.record 6000 true).is_open 6000).1 = false := by
    norm_num [breakerOpened, Breaker.default, Breaker.record, Breaker.next_window,
      Breaker.is_open, List.replicate, List.filter]
    simp
  refine ⟨hb.1, ?_, ?_, hb.2.2.2⟩
  · rw [hb.2.1]
    norm_num
  · rw [hb.2.1, hb.2.2.1]
    norm_num

/-- C7 (amended): at a recording, the breaker opens exactly when the
updated window holds at least `min_samples` outcomes, the failure rate
reaches `threshold`, *and* no open marker — not even an expired one left
uncleared by `is_open` — is pending.  Both directions are stated: under
those three conditions the breaker opens at `now` and `is_open(t)` returns
true precisely while `t < now + cooldown`; a pending marker is never
altered by a recording; and a closed breaker whose sample or rate
condition fails stays closed.  Recordings always append to the window. -/
theorem C7_breaker_open_behaviour (b : Breaker) (now t : ℕ) (f : Bool)
    (hclosed : b.open_until = none)
    (hsamp : b.min_samples ≤ (b.next_window f).length)
    (hrate : b.threshold ≤ (((b.next_window f).filter id).length : ℚ)
        / (((b.next_window f).length : ℚ))) :
    ((b.record now f).is_open t).1 = decide (t < now + b.open_cooldown) ∧
    (b.record now f).open_until = some (now + b.open_cooldown) ∧
    (b.record now f).window = b.next_window f ∧
    (∀ (b' : Breaker) (u now' : ℕ) (f' : Bool), b'.open_until = some u →
      (b'.record now' f').open_until = some u ∧
      (b'.record now' f').window = b'.next_window f') ∧
    (∀ (b'' : Breaker) (now'' : ℕ) (f'' : Bool), b''.open_until = none →
      ¬ (b''.min_samples ≤ (b''.next_window f'').length ∧
          b''.threshold ≤ (((b''.next_window f'').filter id).length : ℚ)
            / (((b''.next_window f'').length : ℚ))) →
      (b''.record now'' f'').open_until = none ∧
      (b''.record now'' f'').window = b''.next_window f'') := by
  have hrec : b.record now f = { b with window := b.next_window f, open_until := some (now + b.open_cooldown) } := by
    unfold Breaker.record
    rw [if_pos ⟨hsamp, hrate, hclosed⟩]
  refine ⟨?_, by rw [hrec], by rw [hrec], ?_, ?_⟩
  · rw [hrec]
    unfold Breaker.is_open
    by_cases hlt : t < now + b.open_cooldown
    · simp [hlt]
    · simp [hlt]
  · intro b' u now' f' hu
    have hcond : ¬ (b'.min_samples ≤ (b'.next_window f').length ∧
        b'.threshold ≤ (((b'.next_window f').filter id).length : ℚ)
          / (((b'.next_window f').length : ℚ)) ∧
        b'.open_until = none) := by
      rintro ⟨-, -, hn⟩
      rw [hu] at hn
      exact Option.noConfusion hn
    constructor
    · unfold Breaker.record
      rw [if_neg hcond]
      exact hu
    · unfold Breaker.record
      rw [if_neg hcond]
  · intro b'' now'' f'' hb0 hno
    have hcond : ¬ (b''.min_samples ≤ (b''.next_window f'').length ∧
        b''.threshold ≤ (((b''.next_window f'').filter id).length : ℚ)
          / (((b''.next_window f'').length : ℚ)) ∧
        b''.open_until = none) := by
      rintro ⟨ha, hb, -⟩
      exact hno ⟨ha, hb⟩
    constructor
    · unfold Breaker.record
      rw [if_neg hcond]
      exact hb0
    · unfold Breaker.record
      rw [if_neg hcond]

/-- C7 witness: a breaker holding nineteen failures with no marker opens on
the twentieth failure at time 0, and `is_open` at 100 ms returns true. -/
theorem C7_breaker_open_behaviour_witness :
    ((({ Breaker.default with window := List.replicate 19 true } : Breaker).record
        0 true).is_open 100).1 = true := by
  have h := C7_breaker_open_behaviour
    { Breaker.default with window := List.replicate 19 true } 0 100 true rfl
    (by norm_num [Breaker.next_window, Breaker.default, List.replicate])
    (by norm_num [Breaker.next_window, Breaker.default, List.replicate, List.filter])
  rw [h.1]
  decide
